import Mathlib

/-!
Shallow embedding of `src/lv_drivers/display/monitor.c` (lv_gui_designer):
the SDL "virtual display" driver.  Machine integers are modelled as `Int`
(`lv_coord_t`, `int32_t`) and `Nat` (pixel values); the `uint32_t` cast of
`lv_area_get_width` is `% 2^32`.  The owned frame buffer `tft_fb` is a flat
memory `Int → Nat` (cells of the array are offsets `0 ≤ i < HOR*VER`; the C
code can generate offsets outside that range, which the model keeps visible).
Each flush also returns the ordered list of acknowledgment/flag events and
the list of buffer offsets it writes, so ordering and out-of-range writes
can be stated.  Configuration constants `MONITOR_HOR_RES`/`MONITOR_VER_RES`
are parameters `HOR`/`VER`.
-/

/-- `lv_area_t`: a rectangle with inclusive corners, from LVGL. -/
structure lv_area_t where
  x1 : Int
  y1 : Int
  x2 : Int
  y2 : Int
deriving DecidableEq

/-- The fields of `lv_disp_drv_t` that `monitor_flush` reads. -/
structure lv_disp_drv_t where
  rotated : Nat
  hor_res : Int
  ver_res : Int
deriving DecidableEq

/-- `lv_area_get_width(area)` from LVGL: `x2 - x1 + 1` (before the
`uint32_t` cast at the call site). -/
def lv_area_get_width (a : lv_area_t) : Int :=
  a.x2 - a.x1 + 1

/-- `hres` as computed at the top of `monitor_flush`:
`disp_drv->rotated == 0 ? disp_drv->hor_res : disp_drv->ver_res`. -/
def flush_hres (d : lv_disp_drv_t) : Int :=
  if d.rotated = 0 then d.hor_res else d.ver_res

/-- `vres` as computed at the top of `monitor_flush`. -/
def flush_vres (d : lv_disp_drv_t) : Int :=
  if d.rotated = 0 then d.ver_res else d.hor_res

/-- The out-of-screen test of `monitor_flush` (monitor.c line 130):
`area->x2 < 0 || area->y2 < 0 || area->x1 > hres - 1 || area->y1 > vres - 1`. -/
def area_out (d : lv_disp_drv_t) (a : lv_area_t) : Bool :=
  a.x2 < 0 || a.y2 < 0 || a.x1 > flush_hres d - 1 || a.y1 > flush_vres d - 1

/-- `monitor_t` in the single-buffered configuration (`MONITOR_DOUBLE_BUFFERED`
off): the owned frame buffer `tft_fb` and the pending-refresh flag
`sdl_refr_qry`.  The native handles are modelled where the claims need them
(see the presentation-loop definitions below). -/
structure monitor_sb where
  tft_fb : Int → Nat
  sdl_refr_qry : Bool

/-- `monitor_t` in the double-buffered configuration: the borrowed pointer
`tft_fb_act` (`none` models `NULL`) and the pending-refresh flag. -/
structure monitor_db where
  tft_fb_act : Option Nat
  sdl_refr_qry : Bool
deriving DecidableEq

/-- Ordered trace of the observable flush events: setting the
pending-refresh flag and calling `lv_disp_flush_ready`. -/
inductive FlushEv where
  | setPending
  | flushReady
deriving DecidableEq

/-- `memcpy(&fb[base], &src[off], w * 4)` on 32-bit cells: cell `base + k`
receives `src (off + k)` for `0 ≤ k < w`. -/
def memcpy_row (fb : Int → Nat) (base : Int) (src : Int → Nat) (off w : Int) :
    Int → Nat :=
  fun i => if base ≤ i ∧ i < base + w then src (off + i - base) else fb i

/-- The offsets `memcpy_row` writes, in order. -/
def memcpy_row_offs (base w : Int) : List Int :=
  (List.range w.toNat).map (fun j => base + Int.ofNat j)

/-- The bulk-copy loop of single-buffered `monitor_flush`
(monitor.c lines 157-160):
`for(y = area->y1; y <= area->y2 && y < MONITOR_VER_RES; y++) {`
`  memcpy(&monitor.tft_fb[y * MONITOR_HOR_RES + area->x1], color_p, w * sizeof(lv_color_t));`
`  color_p += w; }`.
Returns the final buffer and the list of written offsets in order. -/
def bulk_loop (HOR VER x1 y2 w : Int) (src : Int → Nat) (y off : Int)
    (fb : Int → Nat) : (Int → Nat) × List Int :=
  if h : y ≤ y2 ∧ y < VER then
    let rest := bulk_loop HOR VER x1 y2 w src (y + 1) (off + w)
      (memcpy_row fb (y * HOR + x1) src off w)
    (rest.1, memcpy_row_offs (y * HOR + x1) w ++ rest.2)
  else (fb, [])
termination_by (y2 + 1 - y).toNat
decreasing_by
  simp_wf
  omega

/-- The inner loop of the per-pixel conversion path (monitor.c lines 149-152):
`for(x = area->x1; x <= area->x2; x++) {`
`  monitor.tft_fb[y * MONITOR_HOR_RES + x] = lv_color_to32(*color_p); color_p++; }`.
Returns the buffer, the advanced `color_p` position, and the written offsets. -/
def perpix_row (HOR : Int) (conv : Nat → Nat) (y x2 : Int) (src : Int → Nat)
    (x off : Int) (fb : Int → Nat) : (Int → Nat) × Int × List Int :=
  if h : x ≤ x2 then
    let step := perpix_row HOR conv y x2 src (x + 1) (off + 1)
      (fun i => if i = y * HOR + x then conv (src off) else fb i)
    (step.1, step.2.1, (y * HOR + x) :: step.2.2)
  else (fb, off, [])
termination_by (x2 + 1 - x).toNat
decreasing_by
  simp_wf
  omega

/-- The outer loop of the per-pixel conversion path (monitor.c line 148):
`for(y = area->y1; y <= area->y2; y++)` — note: no clamp against
`MONITOR_VER_RES` on this path. -/
def perpix_loop (HOR : Int) (conv : Nat → Nat) (x1 x2 y2 : Int)
    (src : Int → Nat) (y off : Int) (fb : Int → Nat) :
    (Int → Nat) × List Int :=
  if h : y ≤ y2 then
    let row := perpix_row HOR conv y x2 src x1 off fb
    let rest := perpix_loop HOR conv x1 x2 y2 src (y + 1) row.2.1 row.1
    (rest.1, row.2.2 ++ rest.2)
  else (fb, [])
termination_by (y2 + 1 - y).toNat
decreasing_by
  simp_wf
  omega

/-- `monitor_flush` in the double-buffered configuration
(monitor.c lines 122-142): record the caller's buffer pointer, set the
pending flag, acknowledge. -/
def monitor_flush_db (d : lv_disp_drv_t) (a : lv_area_t) (color_p : Nat)
    (m : monitor_db) : monitor_db × List FlushEv :=
  if area_out d a then (m, [.flushReady])
  else
    ({ tft_fb_act := some color_p, sdl_refr_qry := true },
     [.setPending, .flushReady])

/-- `monitor_flush` in the single-buffered configuration with
`LV_COLOR_DEPTH` 24/32 (the bulk `memcpy` path, monitor.c lines 122-167).
`w` is `uint32_t w = lv_area_get_width(area)`. -/
def monitor_flush_sb32 (HOR VER : Int) (d : lv_disp_drv_t) (a : lv_area_t)
    (src : Int → Nat) (m : monitor_sb) :
    monitor_sb × List FlushEv × List Int :=
  if area_out d a then (m, [.flushReady], [])
  else
    let w := lv_area_get_width a % 2 ^ 32
    let r := bulk_loop HOR VER a.x1 a.y2 w src a.y1 0 m.tft_fb
    ({ tft_fb := r.1, sdl_refr_qry := true }, [.setPending, .flushReady], r.2)

/-- `monitor_flush` in the single-buffered configuration with any other
`LV_COLOR_DEPTH` (the per-pixel `lv_color_to32` path, monitor.c lines
122-167); `conv` is the external `lv_color_to32`. -/
def monitor_flush_sbpx (HOR : Int) (conv : Nat → Nat) (d : lv_disp_drv_t)
    (a : lv_area_t) (src : Int → Nat) (m : monitor_sb) :
    monitor_sb × List FlushEv × List Int :=
  if area_out d a then (m, [.flushReady], [])
  else
    let r := perpix_loop HOR conv a.x1 a.x2 a.y2 src a.y1 0 m.tft_fb
    ({ tft_fb := r.1, sdl_refr_qry := true }, [.setPending, .flushReady], r.2)

/-- `monitor_flush2` (monitor.c lines 180-223), double-buffered: identical
body to `monitor_flush` but acting on `monitor2`. -/
def monitor_flush2_db (d : lv_disp_drv_t) (a : lv_area_t) (color_p : Nat)
    (m2 : monitor_db) : monitor_db × List FlushEv :=
  if area_out d a then (m2, [.flushReady])
  else
    ({ tft_fb_act := some color_p, sdl_refr_qry := true },
     [.setPending, .flushReady])

/-- `monitor_flush2`, single-buffered bulk path, acting on `monitor2`. -/
def monitor_flush2_sb32 (HOR VER : Int) (d : lv_disp_drv_t) (a : lv_area_t)
    (src : Int → Nat) (m2 : monitor_sb) :
    monitor_sb × List FlushEv × List Int :=
  if area_out d a then (m2, [.flushReady], [])
  else
    let w := lv_area_get_width a % 2 ^ 32
    let r := bulk_loop HOR VER a.x1 a.y2 w src a.y1 0 m2.tft_fb
    ({ tft_fb := r.1, sdl_refr_qry := true }, [.setPending, .flushReady], r.2)

/-- `monitor_flush2`, single-buffered per-pixel path, acting on `monitor2`. -/
def monitor_flush2_sbpx (HOR : Int) (conv : Nat → Nat) (d : lv_disp_drv_t)
    (a : lv_area_t) (src : Int → Nat) (m2 : monitor_sb) :
    monitor_sb × List FlushEv × List Int :=
  if area_out d a then (m2, [.flushReady], [])
  else
    let r := perpix_loop HOR conv a.x1 a.x2 a.y2 src a.y1 0 m2.tft_fb
    ({ tft_fb := r.1, sdl_refr_qry := true }, [.setPending, .flushReady], r.2)

/-! ### Presentation loop (`monitor_sdl_refr_core`, `window_update`) -/

/-- `SDL_QUIT`. -/
def SDL_QUIT : Nat := 256

/-- `SDL_WINDOWEVENT`. -/
def SDL_WINDOWEVENT : Nat := 512

/-- `SDL_WINDOWEVENT_EXPOSED`. -/
def SDL_WINDOWEVENT_EXPOSED : Nat := 3

/-- `SDL_WINDOWEVENT_CLOSE`. -/
def SDL_WINDOWEVENT_CLOSE : Nat := 14

/-- `SDL_WINDOWEVENT_TAKE_FOCUS`. -/
def SDL_WINDOWEVENT_TAKE_FOCUS : Nat := 15

/-- The fields of `SDL_Event` that `monitor_sdl_refr_core` reads:
`event.type` and `event.window.event`. -/
structure SDL_Event where
  type : Nat
  window_event : Nat
deriving DecidableEq

/-- The test at monitor.c lines 341-346: the event is a window event whose
sub-type is `SDL_WINDOWEVENT_TAKE_FOCUS` or `SDL_WINDOWEVENT_EXPOSED`. -/
def refresh_event (e : SDL_Event) : Bool :=
  e.type == SDL_WINDOWEVENT &&
    (e.window_event == SDL_WINDOWEVENT_TAKE_FOCUS ||
     e.window_event == SDL_WINDOWEVENT_EXPOSED)

/-- Native rendering calls issued by `window_update` in the double-buffered
configuration: `SDL_UpdateTexture` carries the dereferenced buffer pointer. -/
inductive SDLCallD where
  | updateTexture (p : Nat)
  | renderClear
  | renderCopy
  | renderPresent
deriving DecidableEq

/-- `window_update` (monitor.c lines 390-408), double-buffered: if
`tft_fb_act == NULL` return before touching the texture, otherwise update
the texture from the borrowed pointer, clear, copy, present. -/
def window_update_db (m : monitor_db) : List SDLCallD :=
  match m.tft_fb_act with
  | none => []
  | some p => [.updateTexture p, .renderClear, .renderCopy, .renderPresent]

/-- The event pump of `monitor_sdl_refr_core` (lines 329-356), double-buffered
single-monitor configuration: input handlers are external; a window
exposed/take-focus event triggers `window_update(&monitor)`.  The monitor
state is not modified by the pump. -/
def pump_events_db (m : monitor_db) : List SDL_Event → List SDLCallD
  | [] => []
  | e :: rest =>
    (if refresh_event e then window_update_db m else []) ++ pump_events_db m rest

/-- `monitor_sdl_refr_core` (lines 311-362), double-buffered single-monitor
configuration: if the pending flag is set, clear it and run `window_update`;
then pump the queued events.  Returns the new monitor state and the trace of
native rendering calls. -/
def monitor_sdl_refr_core_db (m : monitor_db) (events : List SDL_Event) :
    monitor_db × List SDLCallD :=
  let m1 := if m.sdl_refr_qry then { m with sdl_refr_qry := false } else m
  let t1 := if m.sdl_refr_qry then window_update_db m1 else []
  (m1, t1 ++ pump_events_db m1 events)

/-- A `window_update` invocation on surface 1 (`monitor`) or surface 2
(`monitor2`). -/
inductive UpdEv where
  | upd1
  | upd2
deriving DecidableEq

/-- The event pump of `monitor_sdl_refr_core` in the dual-monitor
configuration: an exposed/take-focus event runs `window_update` on both
surfaces (lines 341-355). -/
def pump_events_dual : List SDL_Event → List UpdEv
  | [] => []
  | e :: rest =>
    (if refresh_event e then [.upd1, .upd2] else []) ++ pump_events_dual rest

/-- `monitor_sdl_refr_core` in the dual-monitor configuration, recording
which surfaces get a `window_update` (lines 315-356): flag-driven updates
for `monitor` and `monitor2`, then the event pump. -/
def monitor_sdl_refr_core_dual (m m2 : monitor_sb) (events : List SDL_Event) :
    monitor_sb × monitor_sb × List UpdEv :=
  let t1 : List UpdEv := if m.sdl_refr_qry then [.upd1] else []
  let t2 : List UpdEv := if m2.sdl_refr_qry then [.upd2] else []
  ({ m with sdl_refr_qry := false }, { m2 with sdl_refr_qry := false },
   t1 ++ t2 ++ pump_events_dual events)

/-! ### Lifecycle (`monitor_sdl_refr_thread`, `monitor_sdl_clean_up`) -/

/-- Observable lifecycle events of the presentation thread: one refresh
cycle, the native destroy calls (tagged with the surface number), `SDL_Quit`
and `exit(0)`. -/
inductive LifeEv where
  | refr_cycle
  | destroyTexture (s : Nat)
  | destroyRenderer (s : Nat)
  | destroyWindow (s : Nat)
  | sdl_quit
  | proc_exit
deriving DecidableEq

/-- `monitor_sdl_clean_up` (monitor.c lines 273-287), dual-monitor
configuration: destroy texture, renderer, window of `monitor`, then of
`monitor2`, then `SDL_Quit()`. -/
def monitor_sdl_clean_up_trace : List LifeEv :=
  [.destroyTexture 1, .destroyRenderer 1, .destroyWindow 1,
   .destroyTexture 2, .destroyRenderer 2, .destroyWindow 2,
   .sdl_quit]

/-- `monitor_sdl_refr_thread` (monitor.c lines 235-253) as its event trace,
for a run in which `sdl_quit_qry` is observed false for `k` loop iterations
and true at iteration `k`: `k` refresh cycles, then `monitor_sdl_clean_up()`,
then `exit(0)`. -/
def monitor_sdl_refr_thread_trace (k : Nat) : List LifeEv :=
  List.replicate k .refr_cycle ++ monitor_sdl_clean_up_trace ++ [.proc_exit]

/-! ### Helper lemmas -/

/-- Cells not covered by any copied row are untouched by the bulk-copy
loop. -/
theorem bulk_loop_fst_untouched (HOR VER x1 y2 w : Int) (src : Int → Nat)
    (y off : Int) (fb : Int → Nat) (i : Int)
    (hi : ∀ r, y ≤ r → r ≤ y2 → r < VER →
      ¬(r * HOR + x1 ≤ i ∧ i < r * HOR + x1 + w)) :
    (bulk_loop HOR VER x1 y2 w src y off fb).1 i = fb i := by
  induction y, off, fb using bulk_loop.induct HOR VER x1 y2 w src with
  | case1 y off fb h ih =>
    rw [bulk_loop, dif_pos h]
    simp only
    rw [ih (fun r hr1 hr2 hr3 => hi r (by omega) hr2 hr3)]
    have hrow := hi y le_rfl h.1 h.2
    simp only [memcpy_row]
    rw [if_neg (by omega)]
  | case2 y off fb h =>
    rw [bulk_loop, dif_neg h]

/-- Value of a cell written by the bulk-copy loop: row `r`, column offset
`j` inside the copied width, receives the source pixel at the row-major
position `(r - y) * w + j` past the current source cursor.  Needs the row
intervals to stay inside one buffer row (`0 ≤ x1`, `x1 + w ≤ HOR`). -/
theorem bulk_loop_fst_written (HOR VER x1 y2 w : Int) (src : Int → Nat)
    (y off : Int) (fb : Int → Nat) (r j : Int)
    (hx1 : 0 ≤ x1) (hxw : x1 + w ≤ HOR)
    (hry2 : r ≤ y2) (hrV : r < VER) (hj0 : 0 ≤ j) (hjw : j < w)
    (hyr : y ≤ r) :
    (bulk_loop HOR VER x1 y2 w src y off fb).1 (r * HOR + x1 + j) =
      src (off + (r - y) * w + j) := by
  induction y, off, fb using bulk_loop.induct HOR VER x1 y2 w src with
  | case1 y off fb h ih =>
    rw [bulk_loop, dif_pos h]
    simp only
    by_cases hr : r = y
    · subst hr
      have hun := bulk_loop_fst_untouched HOR VER x1 y2 w src (r + 1) (off + w)
        (memcpy_row fb (r * HOR + x1) src off w) (r * HOR + x1 + j)
        (by
          intro q hq1 hq2 hq3 hc
          have hmul : (r + 1) * HOR ≤ q * HOR :=
            mul_le_mul_of_nonneg_right (by omega) (by omega)
          obtain ⟨hle, hlt⟩ := hc
          nlinarith [hle, hlt, hmul])
      rw [hun]
      simp only [memcpy_row]
      rw [if_pos ⟨by omega, by omega⟩]
      congr 1
      ring
    · rw [ih (by omega)]
      congr 1
      ring
  | case2 y off fb h =>
    omega

/-- Membership in the offset list of one `memcpy` row. -/
theorem mem_memcpy_row_offs (base w o : Int) :
    o ∈ memcpy_row_offs base w ↔ ∃ j : Int, 0 ≤ j ∧ j < w ∧ o = base + j := by
  unfold memcpy_row_offs
  rw [List.mem_map]
  constructor
  · rintro ⟨jn, hjn, rfl⟩
    rw [List.mem_range] at hjn
    exact ⟨(jn : Int), by omega, by omega, rfl⟩
  · rintro ⟨j, hj0, hjw, rfl⟩
    refine ⟨j.toNat, ?_, ?_⟩
    · rw [List.mem_range]
      omega
    · congr 1
      rw [Int.ofNat_eq_natCast]
      omega

/-- Every offset the bulk-copy loop writes lies in some copied row:
`r * HOR + x1 + j` with `y ≤ r ≤ y2`, `r < VER`, `0 ≤ j < w`. -/
theorem bulk_loop_snd_mem (HOR VER x1 y2 w : Int) (src : Int → Nat)
    (y off : Int) (fb : Int → Nat) (o : Int)
    (ho : o ∈ (bulk_loop HOR VER x1 y2 w src y off fb).2) :
    ∃ r j : Int, y ≤ r ∧ r ≤ y2 ∧ r < VER ∧ 0 ≤ j ∧ j < w ∧
      o = r * HOR + x1 + j := by
  induction y, off, fb using bulk_loop.induct HOR VER x1 y2 w src with
  | case1 y off fb h ih =>
    rw [bulk_loop, dif_pos h] at ho
    simp only [List.mem_append, mem_memcpy_row_offs] at ho
    rcases ho with ⟨j, hj0, hjw, rfl⟩ | ho
    · exact ⟨y, j, le_rfl, h.1, h.2, hj0, hjw, rfl⟩
    · rcases ih ho with ⟨r, j, hr1, hr2, hr3, hj1, hj2, rfl⟩
      exact ⟨r, j, by omega, hr2, hr3, hj1, hj2, rfl⟩
  | case2 y off fb h =>
    rw [bulk_loop, dif_neg h] at ho
    simp at ho

/-- Conversely, the bulk-copy loop does write every offset of every copied
row. -/
theorem bulk_loop_snd_mem_of (HOR VER x1 y2 w : Int) (src : Int → Nat)
    (y off : Int) (fb : Int → Nat) (r j : Int)
    (hry2 : r ≤ y2) (hrV : r < VER) (hj0 : 0 ≤ j) (hjw : j < w)
    (hyr : y ≤ r) :
    r * HOR + x1 + j ∈ (bulk_loop HOR VER x1 y2 w src y off fb).2 := by
  induction y, off, fb using bulk_loop.induct HOR VER x1 y2 w src with
  | case1 y off fb h ih =>
    rw [bulk_loop, dif_pos h]
    simp only [List.mem_append, mem_memcpy_row_offs]
    by_cases hr : r = y
    · subst hr
      exact Or.inl ⟨j, hj0, hjw, rfl⟩
    · exact Or.inr (ih (by omega))
  | case2 y off fb h =>
    omega

/-- One iteration of the per-pixel inner loop is a `memcpy` of the
converted source row: the buffer result of `perpix_row` starting at column
`x` is `memcpy_row` of width `x2 + 1 - x` at base `y * HOR + x`. -/
theorem perpix_row_fst_eq (HOR : Int) (conv : Nat → Nat) (y x2 : Int)
    (src : Int → Nat) (x off : Int) (fb : Int → Nat) :
    (perpix_row HOR conv y x2 src x off fb).1 =
      memcpy_row fb (y * HOR + x) (fun t => conv (src t)) off (x2 + 1 - x) := by
  induction x, off, fb using perpix_row.induct HOR conv y x2 src with
  | case1 x off fb h ih =>
    rw [perpix_row, dif_pos h]
    simp only [dite_eq_ite] at ih
    simp only
    rw [ih]
    funext i
    have hb : y * HOR + (x + 1) = y * HOR + x + 1 := by ring
    rw [hb]
    generalize y * HOR + x = B
    by_cases hB : i = B
    · simp only [memcpy_row]
      rw [if_neg (by omega),
        if_pos (show B ≤ i ∧ i < B + (x2 + 1 - x) by omega)]
      rw [show off + i - B = off by omega]
      simp [hB]
    · simp only [memcpy_row]
      by_cases hc : B ≤ i ∧ i < B + (x2 + 1 - x)
      · rw [if_pos (by omega), if_pos hc]
        have harg : off + 1 + i - (B + 1) = off + i - B := by omega
        rw [harg]
      · rw [if_neg (by omega), if_neg hc]
        simp only [if_neg hB]
  | case2 x off fb h =>
    funext i
    rw [perpix_row, dif_neg h]
    simp only [memcpy_row]
    rw [if_neg (by omega)]

/-- The per-pixel inner loop advances the source cursor by the number of
pixels it consumed. -/
theorem perpix_row_snd_off (HOR : Int) (conv : Nat → Nat) (y x2 : Int)
    (src : Int → Nat) (x off : Int) (fb : Int → Nat) :
    (perpix_row HOR conv y x2 src x off fb).2.1 = off + max (x2 + 1 - x) 0 := by
  induction x, off, fb using perpix_row.induct HOR conv y x2 src with
  | case1 x off fb h ih =>
    rw [perpix_row, dif_pos h]
    simp only [dite_eq_ite] at ih
    simp only
    rw [ih]
    omega
  | case2 x off fb h =>
    rw [perpix_row, dif_neg h]
    simp only
    omega

/-- The per-pixel outer loop computes the same buffer as the bulk-copy loop
run with width `x2 + 1 - x1` over the converted source, for any vertical
clamp `VER` that the rectangle never reaches (`y2 < VER`; in particular
`VER = y2 + 1` makes the clamp vacuous, matching the unclamped per-pixel
loop). -/
theorem perpix_loop_fst_eq_bulk (HOR VER x1 x2 y2 : Int) (conv : Nat → Nat)
    (src : Int → Nat) (y off : Int) (fb : Int → Nat)
    (hx : x1 ≤ x2) (hy2 : y2 < VER) :
    (perpix_loop HOR conv x1 x2 y2 src y off fb).1 =
      (bulk_loop HOR VER x1 y2 (x2 + 1 - x1) (fun t => conv (src t))
        y off fb).1 := by
  induction y, off, fb using perpix_loop.induct HOR conv x1 x2 y2 src with
  | case1 y off fb h row ih =>
    have hrow : row = perpix_row HOR conv y x2 src x1 off fb := rfl
    rw [perpix_loop, dif_pos h, bulk_loop, dif_pos ⟨h, by omega⟩]
    simp only
    rw [hrow, perpix_row_snd_off, perpix_row_fst_eq] at ih
    rw [show off + max (x2 + 1 - x1) 0 = off + (x2 + 1 - x1) by omega] at ih
    rw [perpix_row_snd_off, perpix_row_fst_eq]
    rw [show off + max (x2 + 1 - x1) 0 = off + (x2 + 1 - x1) by omega]
    exact ih
  | case2 y off fb h =>
    rw [perpix_loop, dif_neg h, bulk_loop, dif_neg (by omega)]

/-- The per-pixel inner loop writes the cell of every column it covers. -/
theorem perpix_row_snd_mem_of (HOR : Int) (conv : Nat → Nat) (y x2 : Int)
    (src : Int → Nat) (x off : Int) (fb : Int → Nat) (c : Int)
    (hc2 : c ≤ x2) (hc1 : x ≤ c) :
    y * HOR + c ∈ (perpix_row HOR conv y x2 src x off fb).2.2 := by
  induction x, off, fb using perpix_row.induct HOR conv y x2 src with
  | case1 x off fb h ih =>
    rw [perpix_row, dif_pos h]
    simp only [dite_eq_ite] at ih
    simp only [List.mem_cons]
    by_cases hc : c = x
    · exact Or.inl (by rw [hc])
    · exact Or.inr (ih (by omega))
  | case2 x off fb h =>
    omega

/-- The per-pixel outer loop writes the cell of every row and column of the
rectangle — including rows at or beyond any vertical resolution, since this
path has no vertical clamp. -/
theorem perpix_loop_snd_mem_of (HOR : Int) (conv : Nat → Nat)
    (x1 x2 y2 : Int) (src : Int → Nat) (y off : Int) (fb : Int → Nat)
    (r c : Int) (hr2 : r ≤ y2) (hc1 : x1 ≤ c) (hc2 : c ≤ x2)
    (hyr : y ≤ r) :
    r * HOR + c ∈ (perpix_loop HOR conv x1 x2 y2 src y off fb).2 := by
  induction y, off, fb using perpix_loop.induct HOR conv x1 x2 y2 src with
  | case1 y off fb h row ih =>
    rw [perpix_loop, dif_pos h]
    simp only [List.mem_append]
    by_cases hr : r = y
    · subst hr
      exact Or.inl (perpix_row_snd_mem_of HOR conv r x2 src x1 off fb c hc2 hc1)
    · exact Or.inr (ih (by omega))
  | case2 y off fb h =>
    omega

/-- With a null borrowed pointer the event pump never issues a rendering
call. -/
theorem pump_events_db_of_none (m : monitor_db) (h : m.tft_fb_act = none) :
    ∀ evs, pump_events_db m evs = [] := by
  intro evs
  induction evs with
  | nil => rfl
  | cons e rest ih => simp [pump_events_db, window_update_db, h, ih]

/-- Any texture update issued by `window_update` dereferences exactly the
monitor's current borrowed pointer. -/
theorem mem_window_update_db (m : monitor_db) (q : Nat)
    (h : SDLCallD.updateTexture q ∈ window_update_db m) :
    m.tft_fb_act = some q := by
  cases hp : m.tft_fb_act with
  | none => simp [window_update_db, hp] at h
  | some p => simp [window_update_db, hp] at h; simp [h]

/-- Any texture update issued by the event pump dereferences exactly the
monitor's current borrowed pointer. -/
theorem mem_pump_events_db (m : monitor_db) (q : Nat) (evs : List SDL_Event)
    (h : SDLCallD.updateTexture q ∈ pump_events_db m evs) :
    m.tft_fb_act = some q := by
  induction evs with
  | nil => simp [pump_events_db] at h
  | cons e rest ih =>
    simp only [pump_events_db, List.mem_append] at h
    rcases h with h | h
    · by_cases hr : refresh_event e = true
      · rw [if_pos hr] at h
        exact mem_window_update_db m q h
      · rw [if_neg hr] at h
        simp at h
    · exact ih h

/-- A refresh event in the pumped queue makes the dual-monitor pump emit a
`window_update` for both surfaces. -/
theorem pump_events_dual_mem (evs : List SDL_Event)
    (h : ∃ e ∈ evs, refresh_event e = true) :
    UpdEv.upd1 ∈ pump_events_dual evs ∧ UpdEv.upd2 ∈ pump_events_dual evs := by
  induction evs with
  | nil => simp at h
  | cons e rest ih =>
    simp only [pump_events_dual, List.mem_append]
    rcases h with ⟨e', he', hr⟩
    rcases List.mem_cons.mp he' with rfl | hmem
    · rw [if_pos hr]
      constructor <;> · left; simp
    · rcases ih ⟨e', hmem, hr⟩ with ⟨h1, h2⟩
      exact ⟨Or.inr h1, Or.inr h2⟩

/-! ### Claims -/

/-- C1: for every flush rectangle fully outside the effective bounds
(`area_out` true), `monitor_flush` fires `lv_disp_flush_ready` and returns
with the monitor state — owned buffer or borrowed pointer, and the
pending-refresh flag — unchanged, in the double-buffered, single-buffered
bulk, and single-buffered per-pixel configurations. -/
theorem monitor_flush_out_of_bounds_noop
    (HOR VER : Int) (conv : Nat → Nat) (d : lv_disp_drv_t) (a : lv_area_t)
    (p : Nat) (src : Int → Nat) (mdb : monitor_db) (msb mpx : monitor_sb)
    (h : area_out d a = true) :
    monitor_flush_db d a p mdb = (mdb, [.flushReady]) ∧
    monitor_flush_sb32 HOR VER d a src msb = (msb, [.flushReady], []) ∧
    monitor_flush_sbpx HOR conv d a src mpx = (mpx, [.flushReady], []) := by
  refine ⟨?_, ?_, ?_⟩ <;>
    simp [monitor_flush_db, monitor_flush_sb32, monitor_flush_sbpx, h]

/-- Witness for C1: the spec scenario — 480×320 surface, rectangle
(500,10,510,19) fully off the right edge. -/
theorem monitor_flush_out_of_bounds_noop_witness :
    area_out ⟨0, 480, 320⟩ ⟨500, 10, 510, 19⟩ = true ∧
    (monitor_flush_db ⟨0, 480, 320⟩ ⟨500, 10, 510, 19⟩ 7 ⟨none, false⟩ =
      (⟨none, false⟩, [.flushReady]) ∧
     monitor_flush_sb32 480 320 ⟨0, 480, 320⟩ ⟨500, 10, 510, 19⟩
        (fun _ => 0) ⟨fun _ => 0, false⟩ =
      (⟨fun _ => 0, false⟩, [.flushReady], []) ∧
     monitor_flush_sbpx 480 id ⟨0, 480, 320⟩ ⟨500, 10, 510, 19⟩
        (fun _ => 0) ⟨fun _ => 0, false⟩ =
      (⟨fun _ => 0, false⟩, [.flushReady], [])) :=
  ⟨by decide,
   monitor_flush_out_of_bounds_noop 480 320 id ⟨0, 480, 320⟩ ⟨500, 10, 510, 19⟩
     7 (fun _ => 0) ⟨none, false⟩ ⟨fun _ => 0, false⟩ ⟨fun _ => 0, false⟩
     (by decide)⟩

/-- C2: every invocation of `monitor_flush` and `monitor_flush2`, in every
configuration and on every branch, calls `lv_disp_flush_ready` exactly once;
on the non-early-return branches the acknowledgment comes after the
pending-refresh flag is set (the event trace is exactly
`[setPending, flushReady]`). -/
theorem monitor_flush_ready_exactly_once
    (HOR VER : Int) (conv : Nat → Nat) (d : lv_disp_drv_t) (a : lv_area_t)
    (p p2 : Nat) (src src2 : Int → Nat) (mdb mdb2 : monitor_db)
    (msb mpx msb2 mpx2 : monitor_sb) :
    ((monitor_flush_db d a p mdb).2.count .flushReady = 1 ∧
     (monitor_flush_sb32 HOR VER d a src msb).2.1.count .flushReady = 1 ∧
     (monitor_flush_sbpx HOR conv d a src mpx).2.1.count .flushReady = 1 ∧
     (monitor_flush2_db d a p2 mdb2).2.count .flushReady = 1 ∧
     (monitor_flush2_sb32 HOR VER d a src2 msb2).2.1.count .flushReady = 1 ∧
     (monitor_flush2_sbpx HOR conv d a src2 mpx2).2.1.count .flushReady = 1) ∧
    (area_out d a = false →
     (monitor_flush_db d a p mdb).2 = [.setPending, .flushReady] ∧
     (monitor_flush_sb32 HOR VER d a src msb).2.1 = [.setPending, .flushReady] ∧
     (monitor_flush_sbpx HOR conv d a src mpx).2.1 = [.setPending, .flushReady] ∧
     (monitor_flush2_db d a p2 mdb2).2 = [.setPending, .flushReady] ∧
     (monitor_flush2_sb32 HOR VER d a src2 msb2).2.1 = [.setPending, .flushReady] ∧
     (monitor_flush2_sbpx HOR conv d a src2 mpx2).2.1 = [.setPending, .flushReady]) := by
  by_cases hc : area_out d a = true
  · refine ⟨?_, fun h => by rw [h] at hc; cases hc⟩
    refine ⟨?_, ?_, ?_, ?_, ?_, ?_⟩ <;>
      simp [monitor_flush_db, monitor_flush2_db, monitor_flush_sb32,
        monitor_flush2_sb32, monitor_flush_sbpx, monitor_flush2_sbpx, hc]
  · simp only [Bool.not_eq_true] at hc
    refine ⟨⟨?_, ?_, ?_, ?_, ?_, ?_⟩, fun _ => ⟨?_, ?_, ?_, ?_, ?_, ?_⟩⟩ <;>
      simp [monitor_flush_db, monitor_flush2_db, monitor_flush_sb32,
        monitor_flush2_sb32, monitor_flush_sbpx, monitor_flush2_sbpx, hc]

/-- Witness for C2: an in-bounds rectangle, all six flush variants. -/
theorem monitor_flush_ready_exactly_once_witness :
    area_out ⟨0, 480, 320⟩ ⟨10, 10, 19, 19⟩ = false ∧
    ((monitor_flush_db ⟨0, 480, 320⟩ ⟨10, 10, 19, 19⟩ 1
        ⟨none, false⟩).2.count .flushReady = 1 ∧
     (monitor_flush_sb32 480 320 ⟨0, 480, 320⟩ ⟨10, 10, 19, 19⟩ (fun _ => 0)
        ⟨fun _ => 0, false⟩).2.1.count .flushReady = 1 ∧
     (monitor_flush_sbpx 480 id ⟨0, 480, 320⟩ ⟨10, 10, 19, 19⟩ (fun _ => 0)
        ⟨fun _ => 0, false⟩).2.1.count .flushReady = 1 ∧
     (monitor_flush2_db ⟨0, 480, 320⟩ ⟨10, 10, 19, 19⟩ 2
        ⟨none, false⟩).2.count .flushReady = 1 ∧
     (monitor_flush2_sb32 480 320 ⟨0, 480, 320⟩ ⟨10, 10, 19, 19⟩ (fun _ => 0)
        ⟨fun _ => 0, false⟩).2.1.count .flushReady = 1 ∧
     (monitor_flush2_sbpx 480 id ⟨0, 480, 320⟩ ⟨10, 10, 19, 19⟩ (fun _ => 0)
        ⟨fun _ => 0, false⟩).2.1.count .flushReady = 1) ∧
    ((monitor_flush_db ⟨0, 480, 320⟩ ⟨10, 10, 19, 19⟩ 1 ⟨none, false⟩).2 =
        [.setPending, .flushReady] ∧
     (monitor_flush_sb32 480 320 ⟨0, 480, 320⟩ ⟨10, 10, 19, 19⟩ (fun _ => 0)
        ⟨fun _ => 0, false⟩).2.1 = [.setPending, .flushReady] ∧
     (monitor_flush_sbpx 480 id ⟨0, 480, 320⟩ ⟨10, 10, 19, 19⟩ (fun _ => 0)
        ⟨fun _ => 0, false⟩).2.1 = [.setPending, .flushReady] ∧
     (monitor_flush2_db ⟨0, 480, 320⟩ ⟨10, 10, 19, 19⟩ 2 ⟨none, false⟩).2 =
        [.setPending, .flushReady] ∧
     (monitor_flush2_sb32 480 320 ⟨0, 480, 320⟩ ⟨10, 10, 19, 19⟩ (fun _ => 0)
        ⟨fun _ => 0, false⟩).2.1 = [.setPending, .flushReady] ∧
     (monitor_flush2_sbpx 480 id ⟨0, 480, 320⟩ ⟨10, 10, 19, 19⟩ (fun _ => 0)
        ⟨fun _ => 0, false⟩).2.1 = [.setPending, .flushReady]) :=
  ⟨by decide,
   (monitor_flush_ready_exactly_once 480 320 id ⟨0, 480, 320⟩
     ⟨10, 10, 19, 19⟩ 1 2 (fun _ => 0) (fun _ => 0) ⟨none, false⟩
     ⟨none, false⟩ ⟨fun _ => 0, false⟩ ⟨fun _ => 0, false⟩
     ⟨fun _ => 0, false⟩ ⟨fun _ => 0, false⟩).1,
   (monitor_flush_ready_exactly_once 480 320 id ⟨0, 480, 320⟩
     ⟨10, 10, 19, 19⟩ 1 2 (fun _ => 0) (fun _ => 0) ⟨none, false⟩
     ⟨none, false⟩ ⟨fun _ => 0, false⟩ ⟨fun _ => 0, false⟩
     ⟨fun _ => 0, false⟩ ⟨fun _ => 0, false⟩).2 (by decide)⟩

/-- C3 (amended): in single-buffered mode (bulk path), for every flush
rectangle that passes the bounds check and whose horizontal extent lies
inside the surface (`0 ≤ x1 ≤ x2 ≤ HOR - 1`), every buffer cell in the
clipped intersection receives the source pixel of the corresponding
row-major position, and every other buffer cell keeps its prior value.
(The claim's unrestricted "fully or partially inside" version fails for
horizontally overhanging rectangles — see the counterexample.) -/
theorem flush_single_buffered_copy_exact
    (HOR VER : Int) (d : lv_disp_drv_t) (a : lv_area_t) (src : Int → Nat)
    (m : monitor_sb)
    (hout : area_out d a = false)
    (hx1 : 0 ≤ a.x1) (hx12 : a.x1 ≤ a.x2) (hx2 : a.x2 ≤ HOR - 1)
    (hw32 : a.x2 - a.x1 + 1 < 2 ^ 32) :
    ∀ r c : Int, 0 ≤ r → r < VER → 0 ≤ c → c < HOR →
      ((a.y1 ≤ r ∧ r ≤ a.y2 ∧ a.x1 ≤ c ∧ c ≤ a.x2 →
        (monitor_flush_sb32 HOR VER d a src m).1.tft_fb (r * HOR + c) =
          src ((r - a.y1) * (a.x2 - a.x1 + 1) + (c - a.x1))) ∧
       (¬(a.y1 ≤ r ∧ r ≤ a.y2 ∧ a.x1 ≤ c ∧ c ≤ a.x2) →
        (monitor_flush_sb32 HOR VER d a src m).1.tft_fb (r * HOR + c) =
          m.tft_fb (r * HOR + c))) := by
  intro r c hr0 hrV hc0 hcH
  have hres : (monitor_flush_sb32 HOR VER d a src m).1.tft_fb =
      (bulk_loop HOR VER a.x1 a.y2 (a.x2 - a.x1 + 1) src a.y1 0
        m.tft_fb).1 := by
    rw [monitor_flush_sb32, if_neg (by simp [hout])]
    simp only
    rw [show lv_area_get_width a % 2 ^ 32 = a.x2 - a.x1 + 1 by
      unfold lv_area_get_width
      rw [Int.emod_eq_of_lt (by omega) (by omega)]]
  constructor
  · rintro ⟨h1, h2, h3, h4⟩
    rw [hres]
    have hv := bulk_loop_fst_written HOR VER a.x1 a.y2 (a.x2 - a.x1 + 1) src
      a.y1 0 m.tft_fb r (c - a.x1) hx1 (by omega) h2 hrV (by omega)
      (by omega) h1
    rw [show r * HOR + c = r * HOR + a.x1 + (c - a.x1) by ring, hv]
    congr 1
    ring
  · intro hnot
    rw [hres]
    apply bulk_loop_fst_untouched
    intro q hq1 hq2 hq3 hcontra
    obtain ⟨hle, hlt⟩ := hcontra
    have hH : 0 < HOR := by omega
    rcases lt_trichotomy q r with hqr | hqr | hqr
    · have hm : (q + 1) * HOR ≤ r * HOR :=
        mul_le_mul_of_nonneg_right (by omega) (by omega)
      linarith
    · subst hqr
      exact hnot ⟨hq1, hq2, by linarith, by linarith⟩
    · have hm : (r + 1) * HOR ≤ q * HOR :=
        mul_le_mul_of_nonneg_right (by omega) (by omega)
      linarith

/-- Counterexample for C3 as stated: on a 480×320 surface the rectangle
(478,0)–(481,0) is only partially inside (`x2 = 481` overhangs the right
edge) yet passes the bounds check; the bulk copy then writes the full-width
row starting at offset 478, so buffer cell 480 — row 1, column 0, outside
the rectangle — changes from 0 to the source value 7. -/
theorem flush_single_buffered_copy_exact_cex :
    area_out ⟨0, 480, 320⟩ ⟨478, 0, 481, 0⟩ = false ∧
    ((478 : Int) ≤ 480 - 1 ∧ (480 : Int) - 1 < 481) ∧
    ((0 : Int) < 1 ∧ (0 : Int) ≤ 0) ∧
    (monitor_flush_sb32 480 320 ⟨0, 480, 320⟩ ⟨478, 0, 481, 0⟩ (fun _ => 7)
      ⟨fun _ => 0, false⟩).1.tft_fb (1 * 480 + 0) = 7 ∧
    ((⟨fun _ => 0, false⟩ : monitor_sb).tft_fb (1 * 480 + 0) = 0) := by
  refine ⟨by decide, ⟨by decide, by decide⟩, ⟨by decide, by decide⟩, ?_, rfl⟩
  rw [monitor_flush_sb32, if_neg (by decide)]
  simp only
  rw [show lv_area_get_width ⟨478, 0, 481, 0⟩ % 2 ^ 32 = 4 by decide]
  rw [bulk_loop, dif_pos (by norm_num)]
  simp only
  rw [bulk_loop, dif_neg (by norm_num)]
  norm_num [memcpy_row]

/-- Witness for C3 (amended): the spec scenario — 480×320 surface,
rectangle (10,10)–(19,19). -/
theorem flush_single_buffered_copy_exact_witness :
    (area_out ⟨0, 480, 320⟩ ⟨10, 10, 19, 19⟩ = false ∧
     (0 : Int) ≤ 10 ∧ (10 : Int) ≤ 19 ∧ (19 : Int) ≤ 480 - 1 ∧
     (19 : Int) - 10 + 1 < 2 ^ 32) ∧
    (∀ r c : Int, 0 ≤ r → r < 320 → 0 ≤ c → c < 480 →
      (((10 : Int) ≤ r ∧ r ≤ 19 ∧ (10 : Int) ≤ c ∧ c ≤ 19 →
        (monitor_flush_sb32 480 320 ⟨0, 480, 320⟩ ⟨10, 10, 19, 19⟩
          (fun _ => 3) ⟨fun _ => 0, false⟩).1.tft_fb (r * 480 + c) =
          (fun _ => 3) ((r - 10) * (19 - 10 + 1) + (c - 10))) ∧
       (¬((10 : Int) ≤ r ∧ r ≤ 19 ∧ (10 : Int) ≤ c ∧ c ≤ 19) →
        (monitor_flush_sb32 480 320 ⟨0, 480, 320⟩ ⟨10, 10, 19, 19⟩
          (fun _ => 3) ⟨fun _ => 0, false⟩).1.tft_fb (r * 480 + c) =
          (⟨fun _ => 0, false⟩ : monitor_sb).tft_fb (r * 480 + c)))) :=
  ⟨⟨by decide, by decide, by decide, by decide, by decide⟩,
   flush_single_buffered_copy_exact 480 320 ⟨0, 480, 320⟩ ⟨10, 10, 19, 19⟩
     (fun _ => 3) ⟨fun _ => 0, false⟩ (by decide) (by decide) (by decide)
     (by decide) (by decide)⟩

/-- C4 (amended): on the bulk-copy path the vertical extent is clipped to
the surface height — every offset the copy writes lies in a row strictly
below `VER` (and, for horizontally in-bounds rectangles, strictly below the
end of the `VER * HOR` buffer).  The per-pixel path performs no such clip
(see the counterexample). -/
theorem bulk_path_clips_vertical (HOR VER : Int) (d : lv_disp_drv_t)
    (a : lv_area_t) (src : Int → Nat) (m : monitor_sb)
    (hx1 : 0 ≤ a.x1) (hx12 : a.x1 ≤ a.x2) (hx2 : a.x2 ≤ HOR - 1)
    (hw32 : a.x2 - a.x1 + 1 < 2 ^ 32) :
    ∀ o ∈ (monitor_flush_sb32 HOR VER d a src m).2.2,
      (∃ r j : Int, a.y1 ≤ r ∧ r ≤ a.y2 ∧ r < VER ∧ 0 ≤ j ∧
        j < a.x2 - a.x1 + 1 ∧ o = r * HOR + a.x1 + j) ∧
      o < VER * HOR := by
  intro o ho
  by_cases hc : area_out d a = true
  · rw [monitor_flush_sb32, if_pos (by simp [hc])] at ho
    simp at ho
  · rw [monitor_flush_sb32, if_neg (by simp [hc])] at ho
    simp only at ho
    rw [show lv_area_get_width a % 2 ^ 32 = a.x2 - a.x1 + 1 by
      unfold lv_area_get_width
      rw [Int.emod_eq_of_lt (by omega) (by omega)]] at ho
    obtain ⟨r, j, hr1, hr2, hr3, hj1, hj2, rfl⟩ :=
      bulk_loop_snd_mem _ _ _ _ _ _ _ _ _ _ ho
    have hH : 0 < HOR := by omega
    have hm : r * HOR ≤ (VER - 1) * HOR :=
      mul_le_mul_of_nonneg_right (by omega) (by omega)
    exact ⟨⟨r, j, hr1, hr2, hr3, hj1, hj2, rfl⟩, by linarith⟩

/-- Counterexample for C4 as stated ("on both paths"): on a 480×320
surface, the per-pixel path flushing rectangle (0,319)–(0,320) writes
offset `320 * 480` — the cell of row 320, which is not strictly below the
vertical resolution 320 (it is the first cell past the end of the
buffer). -/
theorem perpix_no_vertical_clip_cex :
    area_out ⟨0, 480, 320⟩ ⟨0, 319, 0, 320⟩ = false ∧
    (320 * 480 : Int) ∈ (monitor_flush_sbpx 480 id ⟨0, 480, 320⟩
      ⟨0, 319, 0, 320⟩ (fun _ => 5) ⟨fun _ => 0, false⟩).2.2 ∧
    ¬((320 * 480 : Int) < 320 * 480) := by
  refine ⟨by decide, ?_, by decide⟩
  rw [monitor_flush_sbpx, if_neg (by decide)]
  simp only
  have hv := perpix_loop_snd_mem_of 480 id 0 0 320 (fun _ => 5) 319 0
    (fun _ => 0) 320 0 (by norm_num) (by norm_num) (by norm_num)
    (by norm_num)
  simpa using hv

/-- Witness for C4 (amended): a rectangle overhanging the bottom edge
(rows 318–321 on a 320-row surface). -/
theorem bulk_path_clips_vertical_witness :
    ((0 : Int) ≤ 10 ∧ (10 : Int) ≤ 12 ∧ (12 : Int) ≤ 480 - 1 ∧
     (12 : Int) - 10 + 1 < 2 ^ 32) ∧
    (∀ o ∈ (monitor_flush_sb32 480 320 ⟨0, 480, 320⟩ ⟨10, 318, 12, 321⟩
        (fun _ => 5) ⟨fun _ => 0, false⟩).2.2,
      (∃ r j : Int, (318 : Int) ≤ r ∧ r ≤ 321 ∧ r < 320 ∧ 0 ≤ j ∧
        j < 12 - 10 + 1 ∧ o = r * 480 + 10 + j) ∧
      o < 320 * 480) :=
  ⟨⟨by decide, by decide, by decide, by decide⟩,
   bulk_path_clips_vertical 480 320 ⟨0, 480, 320⟩ ⟨10, 318, 12, 321⟩
     (fun _ => 5) ⟨fun _ => 0, false⟩ (by decide) (by decide) (by decide)
     (by decide)⟩

/-- C5 (amended): with a matching pixel format (identity conversion), the
per-pixel path and the bulk `memcpy` path produce identical monitor states
— in particular byte-identical owned buffers — for every nonempty
rectangle that does not overhang the bottom edge (`y2 < VER`).  For
rectangles with `y2 ≥ VER` the paths differ, because only the bulk path
clips (see the counterexample). -/
theorem flush_paths_agree (HOR VER : Int) (d : lv_disp_drv_t)
    (a : lv_area_t) (src : Int → Nat) (m : monitor_sb)
    (hx : a.x1 ≤ a.x2) (hy2 : a.y2 < VER)
    (hw32 : a.x2 - a.x1 + 1 < 2 ^ 32) :
    (monitor_flush_sbpx HOR id d a src m).1 =
      (monitor_flush_sb32 HOR VER d a src m).1 := by
  by_cases hc : area_out d a = true
  · rw [monitor_flush_sbpx, if_pos (by simp [hc]),
      monitor_flush_sb32, if_pos (by simp [hc])]
  · rw [monitor_flush_sbpx, if_neg (by simp [hc]),
      monitor_flush_sb32, if_neg (by simp [hc])]
    simp only
    rw [show lv_area_get_width a % 2 ^ 32 = a.x2 - a.x1 + 1 by
      unfold lv_area_get_width
      rw [Int.emod_eq_of_lt (by omega) (by omega)]]
    have he := perpix_loop_fst_eq_bulk HOR VER a.x1 a.x2 a.y2 id src a.y1 0
      m.tft_fb hx hy2
    simp only [id_eq] at he
    congr 1
    rw [show a.x2 - a.x1 + 1 = a.x2 + 1 - a.x1 by ring]
    exact he

/-- Counterexample for C5 as stated: on a 480×320 surface with identity
conversion, for rectangle (0,319)–(0,320) the per-pixel path writes cell
`320 * 480` (value 5) while the bulk path, which clips row 320, leaves it
at 0 — the two buffers are not identical. -/
theorem flush_paths_differ_cex :
    (monitor_flush_sbpx 480 id ⟨0, 480, 320⟩ ⟨0, 319, 0, 320⟩ (fun _ => 5)
      ⟨fun _ => 0, false⟩).1.tft_fb (320 * 480) = 5 ∧
    (monitor_flush_sb32 480 320 ⟨0, 480, 320⟩ ⟨0, 319, 0, 320⟩ (fun _ => 5)
      ⟨fun _ => 0, false⟩).1.tft_fb (320 * 480) = 0 ∧
    (monitor_flush_sbpx 480 id ⟨0, 480, 320⟩ ⟨0, 319, 0, 320⟩ (fun _ => 5)
      ⟨fun _ => 0, false⟩).1.tft_fb ≠
    (monitor_flush_sb32 480 320 ⟨0, 480, 320⟩ ⟨0, 319, 0, 320⟩ (fun _ => 5)
      ⟨fun _ => 0, false⟩).1.tft_fb := by
  have h1 : (monitor_flush_sbpx 480 id ⟨0, 480, 320⟩ ⟨0, 319, 0, 320⟩
      (fun _ => 5) ⟨fun _ => 0, false⟩).1.tft_fb (320 * 480) = 5 := by
    rw [monitor_flush_sbpx, if_neg (by decide)]
    simp only
    rw [perpix_loop_fst_eq_bulk 480 321 0 0 320 id (fun _ => 5) 319 0
      (fun _ => 0) (by norm_num) (by norm_num)]
    have hv := bulk_loop_fst_written 480 321 0 320 (0 + 1 - 0)
      (fun t => id ((fun _ => (5 : Nat)) t)) 319 0 (fun _ => 0) 320 0
      (by norm_num) (by norm_num) (by norm_num) (by norm_num) (by norm_num)
      (by norm_num) (by norm_num)
    simpa using hv
  have h2 : (monitor_flush_sb32 480 320 ⟨0, 480, 320⟩ ⟨0, 319, 0, 320⟩
      (fun _ => 5) ⟨fun _ => 0, false⟩).1.tft_fb (320 * 480) = 0 := by
    rw [monitor_flush_sb32, if_neg (by decide)]
    simp only
    rw [show lv_area_get_width ⟨0, 319, 0, 320⟩ % 2 ^ 32 = 1 by decide]
    rw [bulk_loop_fst_untouched 480 320 0 320 1 (fun _ => 5) 319 0
      (fun _ => 0) (320 * 480) ?_]
    intro q hq1 hq2 hq3 hcon
    have hq : q = 319 := by omega
    subst hq
    norm_num at hcon
  refine ⟨h1, h2, fun he => ?_⟩
  rw [he] at h1
  rw [h1] at h2
  exact absurd h2 (by decide)

/-- Witness for C5 (amended): 480×320 surface, rectangle (10,10)–(19,19),
no bottom overhang. -/
theorem flush_paths_agree_witness :
    ((10 : Int) ≤ 19 ∧ (19 : Int) < 320 ∧ (19 : Int) - 10 + 1 < 2 ^ 32) ∧
    (monitor_flush_sbpx 480 id ⟨0, 480, 320⟩ ⟨10, 10, 19, 19⟩ (fun _ => 3)
        ⟨fun _ => 0, false⟩).1 =
      (monitor_flush_sb32 480 320 ⟨0, 480, 320⟩ ⟨10, 10, 19, 19⟩
        (fun _ => 3) ⟨fun _ => 0, false⟩).1 :=
  ⟨⟨by decide, by decide, by decide⟩,
   flush_paths_agree 480 320 ⟨0, 480, 320⟩ ⟨10, 10, 19, 19⟩ (fun _ => 3)
     ⟨fun _ => 0, false⟩ (by decide) (by decide) (by decide)⟩

/-- C8: the bounds check rejects exactly the fully-outside rectangles; the
single-buffered bulk copy does no horizontal clipping, so a rectangle that
passes the check but overhangs the right edge (`x1 ≤ hres - 1 < x2`) makes
`memcpy` write the full rectangle width from `y * HOR + x1` — concretely,
on 480×320 the bottom-row rectangle (470,319)–(485,319) writes offset
`480 * 320`, past the end of the owned `tft_fb` array. -/
theorem flush_bulk_overruns_buffer :
    (∀ (d : lv_disp_drv_t) (a : lv_area_t),
      area_out d a =
        (decide (a.x2 < 0) || decide (a.y2 < 0) ||
         decide (a.x1 > flush_hres d - 1) ||
         decide (a.y1 > flush_vres d - 1))) ∧
    area_out ⟨0, 480, 320⟩ ⟨470, 319, 485, 319⟩ = false ∧
    ((470 : Int) ≤ 480 - 1 ∧ (480 : Int) - 1 < 485) ∧
    (480 * 320 : Int) ∈ (monitor_flush_sb32 480 320 ⟨0, 480, 320⟩
      ⟨470, 319, 485, 319⟩ (fun _ => 9) ⟨fun _ => 0, false⟩).2.2 ∧
    ¬((480 * 320 : Int) < 480 * 320) := by
  refine ⟨fun d a => rfl, by decide, ⟨by decide, by decide⟩, ?_, by decide⟩
  rw [monitor_flush_sb32, if_neg (by decide)]
  simp only
  rw [show lv_area_get_width ⟨470, 319, 485, 319⟩ % 2 ^ 32 = 16 by decide]
  have hv := bulk_loop_snd_mem_of 480 320 470 319 16 (fun _ => 9) 319 0
    (fun _ => 0) 319 10 (by norm_num) (by norm_num) (by norm_num)
    (by norm_num) (by norm_num)
  simpa using hv

/-- C6: in the double-buffered configuration, a presentation cycle that runs
while the borrowed pointer is still null issues no native rendering call at
all (`window_update` returns before touching the texture), and the cycle
leaves the surface state unchanged except for clearing the pending-refresh
flag. -/
theorem window_update_null_pointer_safe (m : monitor_db)
    (evs : List SDL_Event) (h : m.tft_fb_act = none) :
    window_update_db m = [] ∧
    (monitor_sdl_refr_core_db m evs).2 = [] ∧
    (monitor_sdl_refr_core_db m evs).1 = { m with sdl_refr_qry := false } := by
  obtain ⟨fb, q⟩ := m
  change fb = none at h
  subst h
  refine ⟨by simp [window_update_db], ?_, ?_⟩ <;>
    cases q <;>
      simp [monitor_sdl_refr_core_db, window_update_db,
        pump_events_db_of_none]

/-- Witness for C6: pending flag set, null pointer, one exposed event. -/
theorem window_update_null_pointer_safe_witness :
    ((⟨none, true⟩ : monitor_db).tft_fb_act = none) ∧
    (window_update_db ⟨none, true⟩ = [] ∧
     (monitor_sdl_refr_core_db ⟨none, true⟩ [⟨512, 3⟩]).2 = [] ∧
     (monitor_sdl_refr_core_db ⟨none, true⟩ [⟨512, 3⟩]).1 =
       ⟨none, false⟩) :=
  ⟨rfl, window_update_null_pointer_safe ⟨none, true⟩ [⟨512, 3⟩] rfl⟩

/-- C7: two back-to-back double-buffered flushes with no presentation cycle
between them leave the pending-refresh flag true and the borrowed pointer
equal to the second call's buffer pointer; the next presentation cycle
pushes exactly the second flush's data, and never dereferences the first
flush's pointer. -/
theorem back_to_back_flush_coalesce
    (d : lv_disp_drv_t) (a1 a2 : lv_area_t) (p1 p2 : Nat) (m : monitor_db)
    (evs : List SDL_Event) (h1 : area_out d a1 = false)
    (h2 : area_out d a2 = false) (hp : p1 ≠ p2) :
    ((monitor_flush_db d a2 p2 (monitor_flush_db d a1 p1 m).1).1.sdl_refr_qry
        = true) ∧
    ((monitor_flush_db d a2 p2 (monitor_flush_db d a1 p1 m).1).1.tft_fb_act
        = some p2) ∧
    (monitor_sdl_refr_core_db
        (monitor_flush_db d a2 p2 (monitor_flush_db d a1 p1 m).1).1 []).2 =
      [.updateTexture p2, .renderClear, .renderCopy, .renderPresent] ∧
    SDLCallD.updateTexture p1 ∉
      (monitor_sdl_refr_core_db
        (monitor_flush_db d a2 p2 (monitor_flush_db d a1 p1 m).1).1 evs).2 := by
  have hm2 : (monitor_flush_db d a2 p2 (monitor_flush_db d a1 p1 m).1).1 =
      ⟨some p2, true⟩ := by
    simp [monitor_flush_db, h1, h2]
  rw [hm2]
  refine ⟨rfl, rfl, ?_, ?_⟩
  · simp [monitor_sdl_refr_core_db, window_update_db, pump_events_db]
  · intro hmem
    simp only [monitor_sdl_refr_core_db, List.mem_append] at hmem
    rcases hmem with hmem | hmem
    · simp [window_update_db] at hmem
      exact hp hmem
    · have := mem_pump_events_db _ _ _ hmem
      simp at this
      exact hp this.symm

/-- Witness for C7: two in-bounds flushes with distinct pointers. -/
theorem back_to_back_flush_coalesce_witness :
    (area_out ⟨0, 480, 320⟩ ⟨10, 10, 19, 19⟩ = false ∧ (1 : Nat) ≠ 2) ∧
    ((monitor_flush_db ⟨0, 480, 320⟩ ⟨10, 10, 19, 19⟩ 2
        (monitor_flush_db ⟨0, 480, 320⟩ ⟨10, 10, 19, 19⟩ 1
          ⟨none, false⟩).1).1.sdl_refr_qry = true) ∧
    ((monitor_flush_db ⟨0, 480, 320⟩ ⟨10, 10, 19, 19⟩ 2
        (monitor_flush_db ⟨0, 480, 320⟩ ⟨10, 10, 19, 19⟩ 1
          ⟨none, false⟩).1).1.tft_fb_act = some 2) ∧
    (monitor_sdl_refr_core_db
        (monitor_flush_db ⟨0, 480, 320⟩ ⟨10, 10, 19, 19⟩ 2
          (monitor_flush_db ⟨0, 480, 320⟩ ⟨10, 10, 19, 19⟩ 1
            ⟨none, false⟩).1).1 []).2 =
      [.updateTexture 2, .renderClear, .renderCopy, .renderPresent] ∧
    SDLCallD.updateTexture 1 ∉
      (monitor_sdl_refr_core_db
        (monitor_flush_db ⟨0, 480, 320⟩ ⟨10, 10, 19, 19⟩ 2
          (monitor_flush_db ⟨0, 480, 320⟩ ⟨10, 10, 19, 19⟩ 1
            ⟨none, false⟩).1).1 []).2 :=
  ⟨⟨by decide, by decide⟩,
   back_to_back_flush_coalesce ⟨0, 480, 320⟩ ⟨10, 10, 19, 19⟩
     ⟨10, 10, 19, 19⟩ 1 2 ⟨none, false⟩ [] (by decide) (by decide)
     (by decide)⟩

/-- C9: a window-exposed (or take-focus) event observed by the event pump
makes the presentation cycle invoke `window_update` on every configured
surface — both monitors in dual mode — whatever their pending-refresh flags
hold. -/
theorem exposed_event_updates_all_surfaces (m m2 : monitor_sb)
    (evs : List SDL_Event)
    (h : ∃ e ∈ evs, e.type = SDL_WINDOWEVENT ∧
      (e.window_event = SDL_WINDOWEVENT_EXPOSED ∨
       e.window_event = SDL_WINDOWEVENT_TAKE_FOCUS)) :
    UpdEv.upd1 ∈ (monitor_sdl_refr_core_dual m m2 evs).2.2 ∧
    UpdEv.upd2 ∈ (monitor_sdl_refr_core_dual m m2 evs).2.2 := by
  have h' : ∃ e ∈ evs, refresh_event e = true := by
    rcases h with ⟨e, he, ht, hw⟩
    refine ⟨e, he, ?_⟩
    rcases hw with hw | hw <;> simp [refresh_event, ht, hw]
  rcases pump_events_dual_mem evs h' with ⟨hu1, hu2⟩
  constructor <;> simp [monitor_sdl_refr_core_dual, hu1, hu2]

/-- Witness for C9: both pending flags false, one exposed event. -/
theorem exposed_event_updates_all_surfaces_witness :
    ((⟨512, 3⟩ : SDL_Event).type = SDL_WINDOWEVENT ∧
     (⟨512, 3⟩ : SDL_Event).window_event = SDL_WINDOWEVENT_EXPOSED) ∧
    (UpdEv.upd1 ∈ (monitor_sdl_refr_core_dual ⟨fun _ => 0, false⟩
        ⟨fun _ => 0, false⟩ [⟨512, 3⟩]).2.2 ∧
     UpdEv.upd2 ∈ (monitor_sdl_refr_core_dual ⟨fun _ => 0, false⟩
        ⟨fun _ => 0, false⟩ [⟨512, 3⟩]).2.2) :=
  ⟨⟨by decide, by decide⟩,
   exposed_event_updates_all_surfaces ⟨fun _ => 0, false⟩ ⟨fun _ => 0, false⟩
     [⟨512, 3⟩] ⟨⟨512, 3⟩, by simp, by decide, Or.inl (by decide)⟩⟩

/-- C10: for any number `k` of presentation-loop cycles run before the
quit-requested flag is observed true, the thread's event trace is the `k`
cycles followed by teardown exactly once: per surface the texture, renderer
and window destroys in that order, surface 1 then surface 2, then
`SDL_Quit`, then `exit(0)`; each teardown event occurs exactly once. -/
theorem quit_teardown_once (k : Nat) :
    (monitor_sdl_refr_thread_trace k).take k =
      List.replicate k .refr_cycle ∧
    (monitor_sdl_refr_thread_trace k).drop k =
      [.destroyTexture 1, .destroyRenderer 1, .destroyWindow 1,
       .destroyTexture 2, .destroyRenderer 2, .destroyWindow 2,
       .sdl_quit, .proc_exit] ∧
    (monitor_sdl_refr_thread_trace k).count (.destroyTexture 1) = 1 ∧
    (monitor_sdl_refr_thread_trace k).count (.destroyRenderer 1) = 1 ∧
    (monitor_sdl_refr_thread_trace k).count (.destroyWindow 1) = 1 ∧
    (monitor_sdl_refr_thread_trace k).count (.destroyTexture 2) = 1 ∧
    (monitor_sdl_refr_thread_trace k).count (.destroyRenderer 2) = 1 ∧
    (monitor_sdl_refr_thread_trace k).count (.destroyWindow 2) = 1 ∧
    (monitor_sdl_refr_thread_trace k).count .sdl_quit = 1 ∧
    (monitor_sdl_refr_thread_trace k).count .proc_exit = 1 := by
  have hlen : (List.replicate k LifeEv.refr_cycle).length = k :=
    List.length_replicate k _
  unfold monitor_sdl_refr_thread_trace monitor_sdl_clean_up_trace
  refine ⟨?_, ?_, ?_, ?_, ?_, ?_, ?_, ?_, ?_, ?_⟩ <;>
    simp [List.take_left', List.drop_left', hlen, List.count_append,
      List.count_replicate, List.count_cons, List.count_nil]
